import Mathlib

/-!
Verification of the gastro-kalkulation cost calculator (`gastro_calc.py`).

The Python source is shallowly embedded: SQLite rows become Lean structures,
the database becomes a `Store` of association lists (a `SELECT ... WHERE id = ?`
is a first-match lookup, `SELECT * FROM recipe_items WHERE recipe_id = ?` is a
filter), float arithmetic is modelled exactly over `ℚ`, Python exceptions become
an `Err` sum type, and the `GastroCalculator` instance state (`self.conn`,
`self._recipe_cache`) is threaded explicitly.  Python's `round` is round-half-
to-even, embedded as `pyRound`.
-/

/-- A row of the `ingredients` table (the `id` is the key it is stored under;
`last_update` is an uninspected timestamp and is omitted). -/
structure Ingredient where
  name : String
  unit : String
  price_per_unit : ℚ
  supplier : String
deriving Repr, DecidableEq

/-- A row of the `recipes` table. -/
structure Recipe where
  name : String
  batch_size_l : ℚ
  energy_cost_chf : ℚ
  yield_pct : ℚ
  level : ℤ
deriving Repr, DecidableEq

/-- A row of the `recipe_items` table.  `ingredient_id` and `sub_recipe_id`
are nullable integer columns, hence `Option ℤ`. -/
structure RecipeItem where
  recipe_id : ℤ
  ingredient_id : Option ℤ
  sub_recipe_id : Option ℤ
  amount : ℚ
deriving Repr, DecidableEq

/-- A row of the `packaging_types` table. -/
structure PackagingType where
  name : String
  size_l : ℚ
  price_jar : ℚ
  price_lid : ℚ
  price_label : ℚ
deriving Repr, DecidableEq

/-- A row of the `products` table. -/
structure Product where
  recipe_id : ℤ
  packaging_id : ℤ
  markup_factor : ℚ
deriving Repr, DecidableEq

/-- The backing SQLite database: one association list per table, keyed by the
integer primary key (`recipe_items` rows are selected by `recipe_id`, so they
are kept as a plain list). -/
structure Store where
  ingredients : List (ℤ × Ingredient)
  recipes : List (ℤ × Recipe)
  recipe_items : List RecipeItem
  packaging_types : List (ℤ × PackagingType)
  products : List (ℤ × Product)
deriving Repr, DecidableEq

/-- Embeds `SELECT * FROM recipes WHERE id = ?` followed by `fetchone()`. -/
def Store.lookupRecipe (s : Store) (id : ℤ) : Option Recipe :=
  (s.recipes.lookup id)

/-- Embeds `SELECT * FROM ingredients WHERE id = ?` followed by `fetchone()`. -/
def Store.lookupIngredient (s : Store) (id : ℤ) : Option Ingredient :=
  (s.ingredients.lookup id)

/-- Embeds `SELECT * FROM packaging_types WHERE id = ?` followed by `fetchone()`. -/
def Store.lookupPackaging (s : Store) (id : ℤ) : Option PackagingType :=
  (s.packaging_types.lookup id)

/-- Embeds `SELECT * FROM products WHERE id = ?` followed by `fetchone()`. -/
def Store.lookupProduct (s : Store) (id : ℤ) : Option Product :=
  (s.products.lookup id)

/-- Embeds `SELECT * FROM recipe_items WHERE recipe_id = ?` followed by `fetchall()`. -/
def Store.itemsOf (s : Store) (id : ℤ) : List RecipeItem :=
  s.recipe_items.filter (fun it => it.recipe_id == id)

/-- Python truthiness of a nullable integer column: `if item['ingredient_id']:`
is false for `NULL` (`none`) and for the integer `0`. -/
def truthy : Option ℤ → Bool
  | none => false
  | some n => n != 0

/-- Embeds `calc_cost_per_liter` (gastro_calc.py lines 12-18): cost per net liter.
Returns `0.0` when `batch_size_l <= 0 or yield_pct <= 0`, otherwise divides
by `net_output = batch_size_l * (yield_pct / 100)`. -/
def calc_cost_per_liter (ingredients_cost energy_cost batch_size_l yield_pct : ℚ) : ℚ :=
  if batch_size_l ≤ 0 ∨ yield_pct ≤ 0 then 0
  else
    (ingredients_cost + energy_cost) / (batch_size_l * (yield_pct / 100))

/-- Embeds `calc_cost_per_unit` (gastro_calc.py lines 20-23). -/
def calc_cost_per_unit (cost_per_liter size_l price_jar price_lid price_label : ℚ) : ℚ :=
  (cost_per_liter * size_l) + price_jar + price_lid + price_label

/-- Python 3 `round` on an exact value: round half to even. -/
def pyRound (q : ℚ) : ℤ :=
  if q - ⌊q⌋ < 1/2 then ⌊q⌋
  else if 1/2 < q - ⌊q⌋ then ⌊q⌋ + 1
  else if ⌊q⌋ % 2 = 0 then ⌊q⌋ else ⌊q⌋ + 1

/-- Embeds `calc_target_price` (gastro_calc.py lines 25-28): Swiss 5-cent rounding,
`round(base * 20) / 20` with `base = cost_per_unit * markup_factor`. -/
def calc_target_price (cost_per_unit markup_factor : ℚ) : ℚ :=
  let base := cost_per_unit * markup_factor
  (pyRound (base * 20) : ℚ) / 20

/-- Python exceptions the calculator can raise: `RecursionError` and the two
`ValueError`s are raised explicitly in the source; `noneSubscript` is the
`TypeError` from subscripting the `None` returned by `fetchone()` for an
absent ingredient or packaging row; `zeroDivision` is the `ZeroDivisionError`
from the margin computation when `target_price` is `0.0`. -/
inductive Err where
  | recursionError (recipe_id : ℤ)
  | recipeNotFound (recipe_id : ℤ)
  | productNotFound (product_id : ℤ)
  | noneSubscript
  | zeroDivision
deriving Repr, DecidableEq

/-- Whether an error is one of the explicit "nicht gefunden" `ValueError`s. -/
def Err.isNotFound : Err → Bool
  | .recipeNotFound _ => true
  | .productNotFound _ => true
  | _ => false

/-- An entry of `details['ingredients']`. -/
structure IngredientLine where
  name : String
  amount : ℚ
  unit : String
  price_per_unit : ℚ
  cost : ℚ
deriving Repr, DecidableEq

/-- An entry of `details['sub_recipes']`. -/
structure SubRecipeLine where
  recipe_id : ℤ
  name : String
  amount_l : ℚ
  cost_per_liter : ℚ
  cost : ℚ
deriving Repr, DecidableEq

/-- The `details` dict returned by `calculate_recipe_cost` (all keys it holds
by the time it is returned / cached). -/
structure Details where
  name : String
  batch_size : ℚ
  yield_pct : ℚ
  level : ℤ
  ingredients : List IngredientLine
  sub_recipes : List SubRecipeLine
  energy_cost : ℚ
  total_material_cost : ℚ
  total_cost : ℚ
  net_output_l : ℚ
  cost_per_liter : ℚ
deriving Repr, DecidableEq

/-- Embeds `self._recipe_cache : Dict[int, Tuple[float, Dict]]`; a Python dict update
is modelled by consing, so the most recent binding wins on lookup. -/
abbrev Cache := List (ℤ × (ℚ × Details))

mutual

/-- Embeds `GastroCalculator.calculate_recipe_cost` (gastro_calc.py lines 40-134),
with the connection (`s`) and the mutable cache passed explicitly.  The cache
is returned on the error path as well, because a raised exception leaves
`self._recipe_cache` mutations from completed recursive calls in place.
The item loop is `processItems` below; it carries the `depth ≤ 3` fact
(available because the depth guard has been passed) purely for termination. -/
def calculate_recipe_cost (s : Store) (cache : Cache) (recipe_id : ℤ) (depth : ℤ) :
    Except Err (ℚ × Details) × Cache :=
  if hd : depth > 3 then
    (.error (.recursionError recipe_id), cache)
  else
    match cache.lookup recipe_id with
    | some entry => (.ok entry, cache)
    | none =>
      match s.lookupRecipe recipe_id with
      | none => (.error (.recipeNotFound recipe_id), cache)
      | some recipe =>
        match processItems s cache (s.itemsOf recipe_id) depth (by omega) 0 [] [] with
        | (.error e, cache₁) => (.error e, cache₁)
        | (.ok (total_material_cost, ings, subs), cache₁) =>
          let energy_cost := recipe.energy_cost_chf
          let total_cost := total_material_cost + energy_cost
          let cost_per_liter := calc_cost_per_liter total_material_cost energy_cost
            recipe.batch_size_l recipe.yield_pct
          let details : Details :=
            { name := recipe.name
              batch_size := recipe.batch_size_l
              yield_pct := recipe.yield_pct
              level := recipe.level
              ingredients := ings
              sub_recipes := subs
              energy_cost := energy_cost
              total_material_cost := total_material_cost
              total_cost := total_cost
              net_output_l := recipe.batch_size_l * (recipe.yield_pct / 100)
              cost_per_liter := cost_per_liter }
          (.ok (cost_per_liter, details), (recipe_id, (cost_per_liter, details)) :: cache₁)
termination_by ((4 - depth).toNat, 1, 0)

/-- The `for item in items:` loop of `calculate_recipe_cost` (lines 78-113),
accumulating `total_material_cost`, `details['ingredients']` and
`details['sub_recipes']` and threading the cache through recursive calls. -/
def processItems (s : Store) (cache : Cache) (items : List RecipeItem) (depth : ℤ)
    (hdepth : depth ≤ 3) (total : ℚ) (ings : List IngredientLine)
    (subs : List SubRecipeLine) :
    Except Err (ℚ × List IngredientLine × List SubRecipeLine) × Cache :=
  match items with
  | [] => (.ok (total, ings, subs), cache)
  | item :: rest =>
    if truthy item.ingredient_id then
      match s.lookupIngredient (item.ingredient_id.getD 0) with
      | none => (.error .noneSubscript, cache)
      | some ing =>
        let cost := item.amount * ing.price_per_unit
        processItems s cache rest depth hdepth (total + cost)
          (ings ++ [{ name := ing.name
                      amount := item.amount
                      unit := ing.unit
                      price_per_unit := ing.price_per_unit
                      cost := cost }]) subs
    else if truthy item.sub_recipe_id then
      match calculate_recipe_cost s cache (item.sub_recipe_id.getD 0) (depth + 1) with
      | (.error e, cache₁) => (.error e, cache₁)
      | (.ok (sub_cost_per_liter, sub_details), cache₁) =>
        let cost := item.amount * sub_cost_per_liter
        processItems s cache₁ rest depth hdepth (total + cost) ings
          (subs ++ [{ recipe_id := item.sub_recipe_id.getD 0
                      name := sub_details.name
                      amount_l := item.amount
                      cost_per_liter := sub_cost_per_liter
                      cost := cost }])
    else
      processItems s cache rest depth hdepth total ings subs
termination_by ((4 - depth).toNat, 0, items.length)

end

/-- The dict returned by `calculate_product` (gastro_calc.py lines 167-179). -/
structure ProductResult where
  product_id : ℤ
  recipe_name : String
  packaging_name : String
  size_l : ℚ
  recipe_cost_per_liter : ℚ
  packaging_cost : ℚ
  cost_per_unit : ℚ
  markup_factor : ℚ
  target_price : ℚ
  brutto_margin_pct : ℚ
  recipe_details : Details
deriving Repr, DecidableEq

/-- Embeds `GastroCalculator.calculate_product` (gastro_calc.py lines 136-179).
The margin line `((target_price - cost_per_unit) / target_price) * 100`
raises `ZeroDivisionError` in Python when `target_price` is `0.0`, so that
case is an explicit error branch here. -/
def calculate_product (s : Store) (cache : Cache) (product_id : ℤ) :
    Except Err ProductResult × Cache :=
  match s.lookupProduct product_id with
  | none => (.error (.productNotFound product_id), cache)
  | some product =>
    match calculate_recipe_cost s cache product.recipe_id 0 with
    | (.error e, cache₁) => (.error e, cache₁)
    | (.ok (cost_per_liter, recipe_details), cache₁) =>
      match s.lookupPackaging product.packaging_id with
      | none => (.error .noneSubscript, cache₁)
      | some packaging =>
        let cost_per_unit := calc_cost_per_unit cost_per_liter packaging.size_l
          packaging.price_jar packaging.price_lid packaging.price_label
        let target_price := calc_target_price cost_per_unit product.markup_factor
        if target_price = 0 then (.error .zeroDivision, cache₁)
        else
          let brutto_margin_pct := ((target_price - cost_per_unit) / target_price) * 100
          (.ok { product_id := product_id
                 recipe_name := recipe_details.name
                 packaging_name := packaging.name
                 size_l := packaging.size_l
                 recipe_cost_per_liter := cost_per_liter
                 packaging_cost := packaging.price_jar + packaging.price_lid + packaging.price_label
                 cost_per_unit := cost_per_unit
                 markup_factor := product.markup_factor
                 target_price := target_price
                 brutto_margin_pct := brutto_margin_pct
                 recipe_details := recipe_details }, cache₁)

/-- A `GastroCalculator` instance: the connection to the backing store plus
the private `_recipe_cache`. -/
structure GastroCalculator where
  store : Store
  recipe_cache : Cache
deriving Repr, DecidableEq

/-- The method call `calc.calculate_recipe_cost(recipe_id, depth)`, returning
the result together with the instance as it is left behind. -/
def GastroCalculator.calcRecipeCost (g : GastroCalculator) (recipe_id depth : ℤ) :
    Except Err (ℚ × Details) × GastroCalculator :=
  match calculate_recipe_cost g.store g.recipe_cache recipe_id depth with
  | (res, cache) => (res, { store := g.store, recipe_cache := cache })

/-- The method call `calc.calculate_product(product_id)`, returning the result
together with the instance as it is left behind. -/
def GastroCalculator.calcProduct (g : GastroCalculator) (product_id : ℤ) :
    Except Err ProductResult × GastroCalculator :=
  match calculate_product g.store g.recipe_cache product_id with
  | (res, cache) => (res, { store := g.store, recipe_cache := cache })

/-- The CHECK constraints of `setup_database` (gastro_calc.py lines 230-291):
every row the backing store can hold satisfies them, so they are the standing
assumption on stores. -/
def ValidStore (s : Store) : Prop :=
  (∀ p ∈ s.recipes, 0 < p.2.batch_size_l ∧ 0 < p.2.yield_pct ∧ p.2.yield_pct ≤ 100) ∧
  (∀ p ∈ s.ingredients, 0 ≤ p.2.price_per_unit) ∧
  (∀ p ∈ s.packaging_types,
    0 < p.2.size_l ∧ 0 ≤ p.2.price_jar ∧ 0 ≤ p.2.price_lid ∧ 0 ≤ p.2.price_label) ∧
  (∀ it ∈ s.recipe_items, 0 < it.amount ∧
    ((it.ingredient_id ≠ none ∧ it.sub_recipe_id = none) ∨
     (it.ingredient_id = none ∧ it.sub_recipe_id ≠ none))) ∧
  (∀ p ∈ s.products, 1 ≤ p.2.markup_factor ∧ p.2.markup_factor ≤ 10)

/-- Internal consistency of a cached `(cost_per_liter, details)` pair: the
cost-per-liter is material-plus-energy over positive net output, the material
cost is the sum of the breakdown lines, and every line's cost is its amount
times its unit price (resp. sub-recipe cost per liter). -/
def EntryGood (v : ℚ × Details) : Prop :=
  v.1 = (v.2.total_material_cost + v.2.energy_cost) / v.2.net_output_l ∧
  0 < v.2.net_output_l ∧
  v.2.net_output_l = v.2.batch_size * (v.2.yield_pct / 100) ∧
  v.2.total_material_cost =
    (v.2.ingredients.map IngredientLine.cost).sum + (v.2.sub_recipes.map SubRecipeLine.cost).sum ∧
  (∀ l ∈ v.2.ingredients, l.cost = l.amount * l.price_per_unit) ∧
  (∀ l ∈ v.2.sub_recipes, l.cost = l.amount_l * l.cost_per_liter)

/-- Every entry of the resolver cache is internally consistent.  A freshly
constructed `GastroCalculator` has an empty cache, which trivially satisfies
this, and resolution preserves it. -/
def CacheGood (c : Cache) : Prop := ∀ rid v, c.lookup rid = some v → EntryGood v

/-- A store with no rows at all. -/
def emptyStore : Store :=
  { ingredients := [], recipes := [], recipe_items := [], packaging_types := [], products := [] }

/-- A linear chain of five recipes, each consuming the next; recipe 5 is a
leaf made from one ingredient. -/
def chainStore5 : Store :=
  { ingredients := [(1, ⟨"Basis", "kg", 2, "Lieferant"⟩)]
    recipes := [(1, ⟨"Stufe1", 10, 0, 100, 1⟩), (2, ⟨"Stufe2", 10, 0, 100, 1⟩),
                (3, ⟨"Stufe3", 10, 0, 100, 1⟩), (4, ⟨"Stufe4", 10, 0, 100, 1⟩),
                (5, ⟨"Stufe5", 10, 0, 100, 1⟩)]
    recipe_items := [⟨1, none, some 2, 1⟩, ⟨2, none, some 3, 1⟩,
                     ⟨3, none, some 4, 1⟩, ⟨4, none, some 5, 1⟩,
                     ⟨5, some 1, none, 1⟩]
    packaging_types := []
    products := [] }

/-- The same chain cut to four levels: recipe 4 is the leaf. -/
def chainStore4 : Store :=
  { ingredients := [(1, ⟨"Basis", "kg", 2, "Lieferant"⟩)]
    recipes := [(1, ⟨"Stufe1", 10, 0, 100, 1⟩), (2, ⟨"Stufe2", 10, 0, 100, 1⟩),
                (3, ⟨"Stufe3", 10, 0, 100, 1⟩), (4, ⟨"Stufe4", 10, 0, 100, 1⟩)]
    recipe_items := [⟨1, none, some 2, 1⟩, ⟨2, none, some 3, 1⟩,
                     ⟨3, none, some 4, 1⟩, ⟨4, some 1, none, 1⟩]
    packaging_types := []
    products := [] }

/-- The seed data's `Grundfond Kalb` in isolation (the worked example of the
spec: 100 kg @ 1.50, 30 kg @ 3.33, 20 l @ 7.00, batch 100 l, yield 60 %,
energy 8.00). -/
def grundStore : Store :=
  { ingredients := [(1, ⟨"Kalbsknochen", "kg", 3/2, "Transgourmet"⟩),
                    (2, ⟨"Mirepoix-Gemüse", "kg", 333/100, "Prodega"⟩),
                    (3, ⟨"Weisswein", "l", 7, "Rahm"⟩)]
    recipes := [(1, ⟨"Grundfond Kalb", 100, 8, 60, 1⟩)]
    recipe_items := [⟨1, some 1, none, 100⟩, ⟨1, some 2, none, 30⟩, ⟨1, some 3, none, 20⟩]
    packaging_types := []
    products := [] }

/-- The details dict `calculate_recipe_cost` produces for `grundStore`'s
recipe 1: material 389.90, total 397.90, net 60 l, 397.9/60 per liter. -/
def exGrundDetails : Details :=
  { name := "Grundfond Kalb", batch_size := 100, yield_pct := 60, level := 1
    ingredients := [⟨"Kalbsknochen", 100, "kg", 3/2, 150⟩,
                    ⟨"Mirepoix-Gemüse", 30, "kg", 333/100, 999/10⟩,
                    ⟨"Weisswein", 20, "l", 7, 140⟩]
    sub_recipes := []
    energy_cost := 8, total_material_cost := 3899/10, total_cost := 3979/10
    net_output_l := 60, cost_per_liter := 3979/600 }

/-- The cache after resolving `grundStore`'s recipe 1 from a fresh instance. -/
def grundCache : Cache := [(1, (3979/600, exGrundDetails))]

/-- The `Grundfond Kalb` plus a `Demi-Glace` that consumes 50 l of it together
with two of its own ingredients (seed data rows). -/
def demiStore : Store :=
  { ingredients := [(1, ⟨"Kalbsknochen", "kg", 3/2, "Transgourmet"⟩),
                    (2, ⟨"Mirepoix-Gemüse", "kg", 333/100, "Prodega"⟩),
                    (3, ⟨"Weisswein", "l", 7, "Rahm"⟩),
                    (4, ⟨"Tomatenpüree", "kg", 9/2, "Transgourmet"⟩),
                    (5, ⟨"Cognac", "l", 45, "Rahm"⟩)]
    recipes := [(1, ⟨"Grundfond Kalb", 100, 8, 60, 1⟩),
                (2, ⟨"Demi-Glace Classique", 50, 24/5, 45, 2⟩)]
    recipe_items := [⟨1, some 1, none, 100⟩, ⟨1, some 2, none, 30⟩, ⟨1, some 3, none, 20⟩,
                     ⟨2, none, some 1, 50⟩, ⟨2, some 4, none, 5⟩, ⟨2, some 5, none, 1/2⟩]
    packaging_types := []
    products := [] }

/-- The details dict for `demiStore`'s recipe 2. -/
def exDemiDetails : Details :=
  { name := "Demi-Glace Classique", batch_size := 50, yield_pct := 45, level := 2
    ingredients := [⟨"Tomatenpüree", 5, "kg", 9/2, 45/2⟩,
                    ⟨"Cognac", 1/2, "l", 45, 45/2⟩]
    sub_recipes := [⟨1, "Grundfond Kalb", 50, 3979/600, 3979/12⟩]
    energy_cost := 24/5, total_material_cost := 4519/12, total_cost := 22883/60
    net_output_l := 45/2, cost_per_liter := 22883/1350 }

/-- The cache after resolving `demiStore`'s recipe 2 from a fresh instance:
the sub-recipe was memoized first, then the parent. -/
def exDemiCache : Cache :=
  [(2, (22883/1350, exDemiDetails)), (1, (3979/600, exGrundDetails))]

/-- A recipe whose only item references ingredient 42, which has no row. -/
def missIngStore : Store :=
  { ingredients := []
    recipes := [(1, ⟨"Verwaist", 10, 0, 100, 1⟩)]
    recipe_items := [⟨1, some 42, none, 1⟩]
    packaging_types := []
    products := [] }

/-- A product referencing packaging 77, which has no row. -/
def missPkgStore : Store :=
  { ingredients := []
    recipes := [(9, ⟨"Leer", 1, 0, 100, 1⟩)]
    recipe_items := []
    packaging_types := []
    products := [(1, ⟨9, 77, 1⟩)] }

/-- An all-zero-cost product: empty recipe, free packaging, markup 1, giving
`target_price = 0.0` and so a `ZeroDivisionError` in the margin line. -/
def zeroStore : Store :=
  { ingredients := []
    recipes := [(9, ⟨"Leer", 1, 0, 100, 1⟩)]
    recipe_items := []
    packaging_types := [(1, ⟨"Nullglas", 1, 0, 0, 0⟩)]
    products := [(1, ⟨9, 1, 1⟩)] }

/-- The details dict for `zeroStore`'s recipe 9. -/
def zeroDetails : Details :=
  { name := "Leer", batch_size := 1, yield_pct := 100, level := 1
    ingredients := [], sub_recipes := []
    energy_cost := 0, total_material_cost := 0, total_cost := 0
    net_output_l := 1, cost_per_liter := 0 }

/-- The `grundStore` packaged: Weck-Glas 245 ml (jar 1.38, label 0.60) at
markup 3.8 — the end-to-end example of the spec. -/
def productStore : Store :=
  { ingredients := grundStore.ingredients
    recipes := grundStore.recipes
    recipe_items := grundStore.recipe_items
    packaging_types := [(2, ⟨"Weck-Glas 245ml", 49/200, 69/50, 0, 3/5⟩)]
    products := [(1, ⟨1, 2, 19/5⟩)] }

/-- The pricing result for `productStore`'s product 1: cost per unit
≈ 3.6048, target 13.70, margin ≈ 73.69 %. -/
def exProductResult : ProductResult :=
  { product_id := 1, recipe_name := "Grundfond Kalb", packaging_name := "Weck-Glas 245ml"
    size_l := 49/200, recipe_cost_per_liter := 3979/600, packaging_cost := 99/50
    cost_per_unit := 432571/120000, markup_factor := 19/5, target_price := 137/10
    brutto_margin_pct := 1211429/16440, recipe_details := exGrundDetails }

/-- An arbitrary well-formed cache entry used to pre-seed a cache. -/
def dummyDetails : Details :=
  { name := "Vorbelegt", batch_size := 1, yield_pct := 100, level := 1
    ingredients := [], sub_recipes := []
    energy_cost := 0, total_material_cost := 0, total_cost := 0
    net_output_l := 1, cost_per_liter := 5 }

/-- A cache that already holds recipe 1 (pre-seeded with `dummyDetails`). -/
def seededCache : Cache := [(1, (5, dummyDetails))]

/-- Every binding present in `c` is still present, with the same value,
in `c'`. -/
def CachePreserved (c c' : Cache) : Prop :=
  ∀ k v, c.lookup k = some v → c'.lookup k = some v

/-- Recipe `P`'s own item list contains a line that the item loop treats as a
sub-recipe reference back to `P` itself (ingredient reference falsy,
sub-recipe reference truthy and equal to `P`). -/
def SelfConsuming (s : Store) (P : ℤ) : Prop :=
  ∃ item ∈ s.itemsOf P, truthy item.ingredient_id = false ∧
    truthy item.sub_recipe_id = true ∧ item.sub_recipe_id.getD 0 = P

/-! ## Helper lemmas -/

theorem lookup_mem {α β : Type} [BEq α] [LawfulBEq α] {l : List (α × β)} {k : α} {v : β}
    (h : l.lookup k = some v) : (k, v) ∈ l := by
  induction l with
  | nil => simp [List.lookup] at h
  | cons p rest ih =>
    rw [List.lookup] at h
    by_cases hk : k == p.1
    · simp [hk] at h
      have hkv : (k, v) = p := Prod.ext (eq_of_beq hk) h.symm
      rw [hkv]
      exact List.mem_cons_self p rest
    · simp [hk] at h
      right
      exact ih h

/-- A call with `depth > 3` raises `RecursionError` naming its own recipe,
before touching cache or store. -/
theorem calc_depth_guard (s : Store) (c : Cache) (rid depth : ℤ) (h : depth > 3) :
    calculate_recipe_cost s c rid depth = (.error (.recursionError rid), c) := by
  unfold calculate_recipe_cost
  simp [h]

/-- A call with `depth ≤ 3` on a cached identifier returns the cached tuple
and leaves the cache unchanged, for any backing store. -/
theorem calc_cache_hit (s : Store) (c : Cache) (rid depth : ℤ) (v : ℚ × Details)
    (hv : c.lookup rid = some v) (hd : depth ≤ 3) :
    calculate_recipe_cost s c rid depth = (.ok v, c) := by
  have h3 : ¬ depth > 3 := by omega
  unfold calculate_recipe_cost
  simp [h3, hv]

/-- A successful resolution leaves its own result in the cache. -/
theorem result_cached {s : Store} {c : Cache} {rid depth : ℤ} {v : ℚ × Details} {c' : Cache}
    (h : calculate_recipe_cost s c rid depth = (.ok v, c')) :
    c'.lookup rid = some v := by
  unfold calculate_recipe_cost at h
  split at h
  · simp at h
  · split at h
    · rename_i entry hentry
      simp at h
      obtain ⟨h1, h2⟩ := h
      rw [← h2, hentry, h1]
    · split at h
      · simp at h
      · split at h
        · simp at h
        · simp at h
          obtain ⟨h1, h2⟩ := h
          rw [← h2, ← h1]
          simp [List.lookup]

/-- The item loop only ever adds cache entries (via completed recursive
calls); bindings present at entry survive with their values. -/
theorem processItems_preserved (s : Store) (depth : ℤ) (hd : depth ≤ 3)
    (IH : ∀ c rid res c', calculate_recipe_cost s c rid (depth + 1) = (res, c') →
      CachePreserved c c') :
    ∀ (items : List RecipeItem) (c : Cache) (total : ℚ) (ings : List IngredientLine)
      (subs : List SubRecipeLine) res (c' : Cache),
      processItems s c items depth hd total ings subs = (res, c') → CachePreserved c c' := by
  intro items
  induction items with
  | nil =>
    intro c total ings subs res c' h
    unfold processItems at h
    simp at h
    obtain ⟨-, h2⟩ := h
    subst h2
    intro k v hk
    exact hk
  | cons item rest ih =>
    intro c total ings subs res c' h
    unfold processItems at h
    split at h
    · split at h
      · simp at h
        obtain ⟨-, h2⟩ := h
        subst h2
        intro k v hk
        exact hk
      · exact ih _ _ _ _ _ _ h
    · split at h
      · split at h
        · rename_i e cache₁ hcalc
          simp at h
          obtain ⟨-, h2⟩ := h
          subst h2
          exact IH _ _ _ _ hcalc
        · rename_i scl sdet cache₁ hcalc
          have p1 := IH _ _ _ _ hcalc
          have p2 := ih _ _ _ _ _ _ h
          intro k v hk
          exact p2 _ _ (p1 _ _ hk)
      · exact ih _ _ _ _ _ _ h

/-- The function `calculate_recipe_cost` only ever adds cache entries: every binding
present before a call (hit, miss or error) is present, unchanged, after. -/
theorem calc_preserved : ∀ (s : Store) (c : Cache) (rid depth : ℤ) res (c' : Cache),
    calculate_recipe_cost s c rid depth = (res, c') → CachePreserved c c' := by
  suffices H : ∀ (n : ℕ) (s : Store) (depth : ℤ), (4 - depth).toNat ≤ n →
      ∀ (c : Cache) (rid : ℤ) res (c' : Cache),
      calculate_recipe_cost s c rid depth = (res, c') → CachePreserved c c' by
    intro s c rid depth res c' h
    exact H (4 - depth).toNat s depth le_rfl c rid res c' h
  intro n
  induction n using Nat.strong_induction_on with
  | _ n IHn =>
    intro s depth hn c rid res c' h
    unfold calculate_recipe_cost at h
    split at h
    · simp at h
      obtain ⟨-, h2⟩ := h
      subst h2
      intro k v hk
      exact hk
    · rename_i hd3
      split at h
      · simp at h
        obtain ⟨-, h2⟩ := h
        subst h2
        intro k v hk
        exact hk
      · rename_i hmiss
        split at h
        · simp at h
          obtain ⟨-, h2⟩ := h
          subst h2
          intro k v hk
          exact hk
        · rename_i recipe hrec
          have IH : ∀ c rid res c', calculate_recipe_cost s c rid (depth + 1) = (res, c') →
              CachePreserved c c' := by
            intro c₀ rid₀ res₀ c₀' h₀
            exact IHn (4 - (depth + 1)).toNat (by omega) s (depth + 1) le_rfl c₀ rid₀ res₀ c₀' h₀
          split at h
          · rename_i e cache₁ hpi
            simp at h
            obtain ⟨-, h2⟩ := h
            subst h2
            exact processItems_preserved s depth (by omega) IH _ _ _ _ _ _ _ hpi
          · rename_i M ings subs cache₁ hpi
            have p1 := processItems_preserved s depth (by omega) IH _ _ _ _ _ _ _ hpi
            simp at h
            obtain ⟨-, h2⟩ := h
            intro k v hk
            have hk1 := p1 _ _ hk
            have hne : ¬ (k == rid) = true := by
              intro hb
              have hkr : k = rid := eq_of_beq hb
              subst hkr
              rw [hmiss] at hk
              exact Option.noConfusion hk
            rw [← h2]
            rw [List.lookup]
            simp only [hne]
            simpa using hk1

/-- The rounding `pyRound` is within one half of its argument (it picks a nearest
integer). -/
theorem pyRound_close (q : ℚ) : |(pyRound q : ℚ) - q| ≤ 1/2 := by
  have h0 : ((⌊q⌋ : ℤ) : ℚ) ≤ q := Int.floor_le q
  have h1 : q < (⌊q⌋ : ℤ) + 1 := Int.lt_floor_add_one q
  unfold pyRound
  split_ifs with hlt hgt hev <;>
    · rw [abs_le]
      push_cast
      constructor <;> linarith

/-- One-shot evaluation of the worked example: resolving `grundStore`'s
recipe 1 on a fresh instance yields 397.9/60 per liter and memoizes it. -/
theorem grund_eval :
    calculate_recipe_cost grundStore [] 1 0 = (.ok (3979/600, exGrundDetails), grundCache) := by
  simp [calculate_recipe_cost, processItems, grundStore, Store.lookupRecipe, Store.itemsOf,
    Store.lookupIngredient, truthy, List.lookup, calc_cost_per_liter, exGrundDetails, grundCache]
  norm_num

/-- C6: for every `cost_per_unit` and `markup_factor` the target price is
`round(cost_per_unit × markup_factor × 20) / 20` (Python's round, i.e. half
to even on the exact value), which snaps to the nearest 0.05 increment
(a multiple of 1/20 within 1/40 of the raw price); in particular rounding
19.03 with increment 0.05 gives 19.05 and rounding 19.00 gives 19.00. -/
theorem C6_target_price_rounding :
    (∀ cost_per_unit markup_factor : ℚ,
      calc_target_price cost_per_unit markup_factor =
        (pyRound (cost_per_unit * markup_factor * 20) : ℚ) / 20) ∧
    (∀ cost_per_unit markup_factor : ℚ,
      (∃ k : ℤ, calc_target_price cost_per_unit markup_factor = (k : ℚ) / 20) ∧
      |calc_target_price cost_per_unit markup_factor - cost_per_unit * markup_factor| ≤ 1/40) ∧
    calc_target_price (1903/100) 1 = 1905/100 ∧
    calc_target_price 19 1 = 19 := by
  refine ⟨fun c m => rfl, fun c m => ⟨⟨pyRound (c * m * 20), rfl⟩, ?_⟩, ?_, ?_⟩
  · have h := pyRound_close (c * m * 20)
    have h20 : calc_target_price c m = (pyRound (c * m * 20) : ℚ) / 20 := rfl
    rw [h20]
    rw [abs_le] at h ⊢
    constructor <;> [linarith; linarith]
  · norm_num [calc_target_price, pyRound]
  · norm_num [calc_target_price, pyRound]

/-- C2: `calculate_recipe_cost` raises the depth-exceeded error naming the
requested recipe whenever `depth > 3`, for any store and cache; on the
five-level chain the root call fails with `RecursionError` at the fifth
recipe (no silent truncation), while the four-level chain resolves to a
value (1/5000 per liter). -/
theorem C2_depth_cap :
    (∀ (s : Store) (c : Cache) (rid depth : ℤ), depth > 3 →
      calculate_recipe_cost s c rid depth = (.error (.recursionError rid), c)) ∧
    (calculate_recipe_cost chainStore5 [] 1 0).1 = .error (.recursionError 5) ∧
    ((calculate_recipe_cost chainStore4 [] 1 0).1.toOption.map Prod.fst) = some (1/5000) := by
  refine ⟨fun s c rid depth h => calc_depth_guard s c rid depth h, ?_, ?_⟩
  · simp [calculate_recipe_cost, processItems, chainStore5, Store.lookupRecipe, Store.itemsOf,
      Store.lookupIngredient, truthy, List.lookup, calc_cost_per_liter]
  · simp [calculate_recipe_cost, processItems, chainStore4, Store.lookupRecipe, Store.itemsOf,
      Store.lookupIngredient, truthy, List.lookup, calc_cost_per_liter]
    norm_num
    exact ⟨_, rfl⟩

theorem C2_depth_cap_witness :
    (4 : ℤ) > 3 ∧
    calculate_recipe_cost grundStore grundCache 7 4 = (.error (.recursionError 7), grundCache) :=
  ⟨by norm_num, C2_depth_cap.1 grundStore grundCache 7 4 (by norm_num)⟩

/-- C9: neither method ever modifies the backing store — both bodies issue
only `SELECT` queries, so the embedded state transition leaves the `store`
component of the instance untouched on every path (success or error); only
the in-memory `_recipe_cache` changes. -/
theorem C9_store_never_mutated : ∀ (g : GastroCalculator) (rid depth pid : ℤ),
    ((g.calcRecipeCost rid depth).2).store = g.store ∧
    ((g.calcProduct pid).2).store = g.store := by
  intro g rid depth pid
  constructor
  · rcases hx : calculate_recipe_cost g.store g.recipe_cache rid depth with ⟨res, cache⟩
    simp [GastroCalculator.calcRecipeCost, hx]
  · rcases hx : calculate_product g.store g.recipe_cache pid with ⟨res, cache⟩
    simp [GastroCalculator.calcProduct, hx]

/-- C10: an item whose ingredient reference and sub-recipe reference are both
falsy (NULL or 0) is silently skipped by the item loop: processing it is the
same as processing the remaining items, with identical accumulated material
cost, identical breakdown lists, identical cache, and no error. -/
theorem C10_falsy_item_skipped : ∀ (s : Store) (c : Cache) (item : RecipeItem)
    (rest : List RecipeItem) (depth : ℤ) (hd : depth ≤ 3) (total : ℚ)
    (ings : List IngredientLine) (subs : List SubRecipeLine),
    truthy item.ingredient_id = false → truthy item.sub_recipe_id = false →
    processItems s c (item :: rest) depth hd total ings subs =
      processItems s c rest depth hd total ings subs := by
  intro s c item rest depth hd total ings subs h1 h2
  conv_lhs => unfold processItems
  simp [h1, h2]

theorem C10_falsy_item_skipped_witness :
    truthy (some 0) = false ∧ truthy none = false ∧
    processItems grundStore [] [⟨1, some 0, some 0, 5⟩] 0 (by norm_num) 0 [] [] =
      processItems grundStore [] [] 0 (by norm_num) 0 [] [] :=
  ⟨rfl, rfl,
    C10_falsy_item_skipped grundStore [] ⟨1, some 0, some 0, 5⟩ [] 0 (by norm_num) 0 [] []
      rfl rfl⟩

/-- C3 as stated is false: the depth guard runs *before* the cache check
(lines 45-50), so a call for an already-cached recipe with `depth > 3`
raises `RecursionError` instead of returning the cached tuple. -/
theorem C3_cached_counterexample :
    seededCache.lookup 1 = some (5, dummyDetails) ∧
    calculate_recipe_cost grundStore seededCache 1 4 =
      (.error (.recursionError 1), seededCache) ∧
    (Except.error (Err.recursionError 1) : Except Err (ℚ × Details)) ≠ .ok (5, dummyDetails) := by
  refine ⟨by simp [seededCache, List.lookup], calc_depth_guard _ _ _ _ (by norm_num), by simp⟩

/-- C3 amended: a later call for a cached identifier returns the cached tuple
without querying the store (the result is the same for every store) and
without re-running the body — but only for `depth ≤ 3`; depth is still
validated first, so `depth > 3` raises even on a cache hit. -/
theorem C3_cached_call_amended : ∀ (s : Store) (c : Cache) (rid : ℤ) (v : ℚ × Details)
    (depth : ℤ), c.lookup rid = some v →
    (depth ≤ 3 → calculate_recipe_cost s c rid depth = (.ok v, c)) ∧
    (depth > 3 → calculate_recipe_cost s c rid depth = (.error (.recursionError rid), c)) := by
  intro s c rid v depth hv
  exact ⟨fun hd => calc_cache_hit s c rid depth v hv hd,
         fun hd => calc_depth_guard s c rid depth hd⟩

theorem C3_cached_call_amended_witness :
    seededCache.lookup 1 = some (5, dummyDetails) ∧ (2 : ℤ) ≤ 3 ∧
    calculate_recipe_cost emptyStore seededCache 1 2 = (.ok (5, dummyDetails), seededCache) := by
  refine ⟨by simp [seededCache, List.lookup], by norm_num, ?_⟩
  exact (C3_cached_call_amended emptyStore seededCache 1 (5, dummyDetails) 2
    (by simp [seededCache, List.lookup])).1 (by norm_num)

/-- C5: resolving the same recipe twice on one instance returns the identical
`(cost_per_liter, details)` tuple and the identical cache, and the second
call never touches the store: its result is the same against *any* backing
store, so the per-identifier lookups happen at most once per instance. -/
theorem C5_memoized_idempotent : ∀ (s : Store) (c : Cache) (rid : ℤ) (v : ℚ × Details)
    (c' : Cache), calculate_recipe_cost s c rid 0 = (.ok v, c') →
    calculate_recipe_cost s c' rid 0 = (.ok v, c') ∧
    (∀ s₂ : Store, calculate_recipe_cost s₂ c' rid 0 = (.ok v, c')) := by
  intro s c rid v c' h
  have hc := result_cached h
  exact ⟨calc_cache_hit s c' rid 0 v hc (by norm_num),
         fun s₂ => calc_cache_hit s₂ c' rid 0 v hc (by norm_num)⟩

theorem C5_memoized_idempotent_witness :
    calculate_recipe_cost grundStore [] 1 0 = (.ok (3979/600, exGrundDetails), grundCache) ∧
    calculate_recipe_cost grundStore grundCache 1 0 =
      (.ok (3979/600, exGrundDetails), grundCache) ∧
    calculate_recipe_cost emptyStore grundCache 1 0 =
      (.ok (3979/600, exGrundDetails), grundCache) :=
  ⟨grund_eval, (C5_memoized_idempotent _ _ _ _ _ grund_eval).1,
    (C5_memoized_idempotent _ _ _ _ _ grund_eval).2 emptyStore⟩

/-- Evaluation of the spec's end-to-end example: product 1 of `productStore`
prices to cost ≈ 3.6048 per 245 ml unit, target 13.70, margin ≈ 73.69 %. -/
theorem product_eval :
    calculate_product productStore [] 1 = (.ok exProductResult, grundCache) := by
  simp [calculate_product, calculate_recipe_cost, processItems, productStore, grundStore,
    Store.lookupRecipe, Store.itemsOf, Store.lookupIngredient, Store.lookupProduct,
    Store.lookupPackaging, truthy, List.lookup, calc_cost_per_liter, calc_cost_per_unit,
    calc_target_price, pyRound, exProductResult, exGrundDetails, grundCache]
  norm_num [Int.fract]

/-- Resolving the empty recipe 9 of `zeroStore` yields cost 0 per liter. -/
theorem zero_eval :
    calculate_recipe_cost zeroStore [] 9 0 = (.ok (0, zeroDetails), [(9, (0, zeroDetails))]) := by
  simp [calculate_recipe_cost, processItems, zeroStore, Store.lookupRecipe, Store.itemsOf,
    truthy, List.lookup, calc_cost_per_liter, zeroDetails]

/-- Resolving the empty recipe 9 of `missPkgStore` yields cost 0 per liter. -/
theorem misspkg_recipe_eval :
    calculate_recipe_cost missPkgStore [] 9 0 =
      (.ok (0, zeroDetails), [(9, (0, zeroDetails))]) := by
  simp [calculate_recipe_cost, processItems, missPkgStore, Store.lookupRecipe, Store.itemsOf,
    truthy, List.lookup, calc_cost_per_liter, zeroDetails]

/-- C7: whenever pricing succeeds the returned margin is
`(target_price − cost_per_unit) / target_price × 100` and the target price is
nonzero; when the rounded target price is exactly 0 the margin division
raises `ZeroDivisionError`, so `calculate_product` returns no result and the
caller must guard. -/
theorem C7_margin_formula :
    (∀ (s : Store) (c : Cache) (pid : ℤ) (res : ProductResult) (c' : Cache),
      calculate_product s c pid = (.ok res, c') →
      res.brutto_margin_pct = ((res.target_price - res.cost_per_unit) / res.target_price) * 100 ∧
      res.target_price ≠ 0) ∧
    (∀ (s : Store) (c : Cache) (pid : ℤ) (product : Product) (cpl : ℚ) (rd : Details)
      (c₁ : Cache) (pk : PackagingType),
      s.lookupProduct pid = some product →
      calculate_recipe_cost s c product.recipe_id 0 = (.ok (cpl, rd), c₁) →
      s.lookupPackaging product.packaging_id = some pk →
      calc_target_price
        (calc_cost_per_unit cpl pk.size_l pk.price_jar pk.price_lid pk.price_label)
        product.markup_factor = 0 →
      calculate_product s c pid = (.error .zeroDivision, c₁)) := by
  constructor
  · intro s c pid res c' h
    unfold calculate_product at h
    split at h
    · simp at h
    · split at h
      · simp at h
      · split at h
        · simp at h
        · dsimp only at h
          split at h
          · simp at h
          · rename_i htp
            simp at h
            obtain ⟨h1, -⟩ := h
            subst h1
            exact ⟨rfl, htp⟩
  · intro s c pid product cpl rd c₁ pk hprod hcalc hpkg htp
    simp [calculate_product, hprod, hcalc, hpkg, htp]

theorem C7_margin_formula_witness :
    calculate_product productStore [] 1 = (.ok exProductResult, grundCache) ∧
    exProductResult.brutto_margin_pct =
      ((exProductResult.target_price - exProductResult.cost_per_unit) /
        exProductResult.target_price) * 100 ∧
    exProductResult.target_price ≠ 0 ∧
    calculate_product zeroStore [] 1 = (.error .zeroDivision, [(9, (0, zeroDetails))]) := by
  refine ⟨product_eval, (C7_margin_formula.1 _ _ _ _ _ product_eval).1,
    (C7_margin_formula.1 _ _ _ _ _ product_eval).2, ?_⟩
  refine C7_margin_formula.2 zeroStore [] 1 ⟨9, 1, 1⟩ 0 zeroDetails
    [(9, (0, zeroDetails))] ⟨"Nullglas", 1, 0, 0, 0⟩ ?_ ?_ ?_ ?_
  · simp [zeroStore, Store.lookupProduct, List.lookup]
  · exact zero_eval
  · simp [zeroStore, Store.lookupPackaging, List.lookup]
  · norm_num [calc_target_price, calc_cost_per_unit, pyRound]

/-- C8 as stated is false for referenced entities: a recipe item pointing at
an ingredient with no row makes `calculate_recipe_cost` fail with the
`TypeError` of subscripting `None` (`ing['price_per_unit']` on line 87), not
with a "nicht gefunden" `ValueError`. -/
theorem C8_notfound_counterexample :
    (calculate_recipe_cost missIngStore [] 1 0).1 = .error .noneSubscript ∧
    Err.noneSubscript.isNotFound = false := by
  constructor
  · simp [calculate_recipe_cost, processItems, missIngStore, Store.lookupRecipe, Store.itemsOf,
      Store.lookupIngredient, truthy, List.lookup]
  · rfl

/-- C8 amended: an unknown recipe identifier and an unknown product
identifier fail with the explicit not-found `ValueError`s, raised to the
immediate caller; an absent *referenced* entity (ingredient or packaging row)
also makes the operation fail and propagate to the caller, but with the
none-subscript `TypeError`, not a not-found error. -/
theorem C8_notfound_amended :
    (∀ (s : Store) (c : Cache) (rid depth : ℤ), depth ≤ 3 →
      c.lookup rid = none → s.lookupRecipe rid = none →
      calculate_recipe_cost s c rid depth = (.error (.recipeNotFound rid), c)) ∧
    (∀ (s : Store) (c : Cache) (pid : ℤ), s.lookupProduct pid = none →
      calculate_product s c pid = (.error (.productNotFound pid), c)) ∧
    (∀ (s : Store) (c : Cache) (rid depth : ℤ) (recipe : Recipe) (item : RecipeItem)
      (rest : List RecipeItem), depth ≤ 3 →
      c.lookup rid = none → s.lookupRecipe rid = some recipe →
      s.itemsOf rid = item :: rest → truthy item.ingredient_id = true →
      s.lookupIngredient (item.ingredient_id.getD 0) = none →
      calculate_recipe_cost s c rid depth = (.error .noneSubscript, c)) ∧
    (∀ (s : Store) (c : Cache) (pid : ℤ) (product : Product) (cpl : ℚ) (rd : Details)
      (c₁ : Cache), s.lookupProduct pid = some product →
      calculate_recipe_cost s c product.recipe_id 0 = (.ok (cpl, rd), c₁) →
      s.lookupPackaging product.packaging_id = none →
      calculate_product s c pid = (.error .noneSubscript, c₁)) ∧
    (∀ rid : ℤ, (Err.recipeNotFound rid).isNotFound = true) ∧
    (∀ pid : ℤ, (Err.productNotFound pid).isNotFound = true) ∧
    Err.noneSubscript.isNotFound = false := by
  refine ⟨?_, ?_, ?_, ?_, fun _ => rfl, fun _ => rfl, rfl⟩
  · intro s c rid depth hd hc hr
    have h3 : ¬ depth > 3 := by omega
    unfold calculate_recipe_cost
    simp [h3, hc, hr]
  · intro s c pid hp
    simp [calculate_product, hp]
  · intro s c rid depth recipe item rest hd hc hr hitems hing hlook
    have h3 : ¬ depth > 3 := by omega
    unfold calculate_recipe_cost
    simp only [h3, hc, hr, hitems]
    conv_lhs => unfold processItems
    simp [hing, hlook, h3]
  · intro s c pid product cpl rd c₁ hprod hcalc hpkg
    simp [calculate_product, hprod, hcalc, hpkg]

theorem C8_notfound_amended_witness :
    calculate_recipe_cost grundStore [] 99 0 = (.error (.recipeNotFound 99), []) ∧
    calculate_product grundStore [] 1 = (.error (.productNotFound 1), []) ∧
    calculate_recipe_cost missIngStore [] 1 0 = (.error .noneSubscript, []) ∧
    calculate_product missPkgStore [] 1 = (.error .noneSubscript, [(9, (0, zeroDetails))]) := by
  refine ⟨?_, ?_, ?_, ?_⟩
  · exact C8_notfound_amended.1 grundStore [] 99 0 (by norm_num) rfl
      (by simp [grundStore, Store.lookupRecipe, List.lookup])
  · exact C8_notfound_amended.2.1 grundStore [] 1
      (by simp [grundStore, Store.lookupProduct, List.lookup])
  · exact C8_notfound_amended.2.2.1 missIngStore [] 1 0 ⟨"Verwaist", 10, 0, 100, 1⟩
      ⟨1, some 42, none, 1⟩ [] (by norm_num) rfl
      (by simp [missIngStore, Store.lookupRecipe, List.lookup])
      (by simp [missIngStore, Store.itemsOf])
      (by simp [truthy]) (by simp [missIngStore, Store.lookupIngredient, List.lookup])
  · exact C8_notfound_amended.2.2.2.1 missPkgStore [] 1 ⟨9, 77, 1⟩ 0 zeroDetails
      [(9, (0, zeroDetails))]
      (by simp [missPkgStore, Store.lookupProduct, List.lookup])
      misspkg_recipe_eval
      (by simp [missPkgStore, Store.lookupPackaging, List.lookup])

/-- The item loop keeps the cache good and, on success, returns a material
cost equal to the sum of the breakdown lines it built, each line costed as
amount times unit price (resp. amount times sub-recipe cost per liter). -/
theorem processItems_good (s : Store) (depth : ℤ) (hd : depth ≤ 3)
    (IH : ∀ c rid res c', CacheGood c →
      calculate_recipe_cost s c rid (depth + 1) = (res, c') →
      CacheGood c' ∧ ∀ v, res = .ok v → EntryGood v) :
    ∀ (items : List RecipeItem) (c : Cache) (total : ℚ) (ings : List IngredientLine)
      (subs : List SubRecipeLine) res (c' : Cache),
      CacheGood c →
      total = (ings.map IngredientLine.cost).sum + (subs.map SubRecipeLine.cost).sum →
      (∀ l ∈ ings, l.cost = l.amount * l.price_per_unit) →
      (∀ l ∈ subs, l.cost = l.amount_l * l.cost_per_liter) →
      processItems s c items depth hd total ings subs = (res, c') →
      CacheGood c' ∧ ∀ M I S, res = .ok (M, I, S) →
        M = (I.map IngredientLine.cost).sum + (S.map SubRecipeLine.cost).sum ∧
        (∀ l ∈ I, l.cost = l.amount * l.price_per_unit) ∧
        (∀ l ∈ S, l.cost = l.amount_l * l.cost_per_liter) := by
  intro items
  induction items with
  | nil =>
    intro c total ings subs res c' hcg htot hings hsubs h
    unfold processItems at h
    simp at h
    obtain ⟨h1, h2⟩ := h
    subst h2
    refine ⟨hcg, fun M I S hMIS => ?_⟩
    rw [← h1] at hMIS
    simp at hMIS
    obtain ⟨hM, hI, hS⟩ := hMIS
    subst hM; subst hI; subst hS
    exact ⟨htot, hings, hsubs⟩
  | cons item rest ih =>
    intro c total ings subs res c' hcg htot hings hsubs h
    unfold processItems at h
    split at h
    · split at h
      · simp at h
        obtain ⟨h1, h2⟩ := h
        subst h2
        refine ⟨hcg, fun M I S hMIS => ?_⟩
        rw [← h1] at hMIS
        simp at hMIS
      · rename_i ing hing
        refine ih _ _ _ _ _ _ hcg ?_ ?_ hsubs h
        · simp [htot]
          ring
        · intro l hl
          rw [List.mem_append] at hl
          rcases hl with hl | hl
          · exact hings l hl
          · simp at hl
            subst hl
            rfl
    · split at h
      · split at h
        · rename_i e cache₁ hcalc
          simp at h
          obtain ⟨h1, h2⟩ := h
          subst h2
          refine ⟨(IH _ _ _ _ hcg hcalc).1, fun M I S hMIS => ?_⟩
          rw [← h1] at hMIS
          simp at hMIS
        · rename_i scl sdet cache₁ hcalc
          obtain ⟨hcg₁, -⟩ := IH _ _ _ _ hcg hcalc
          refine ih _ _ _ _ _ _ hcg₁ ?_ hings ?_ h
          · simp [htot]
            ring
          · intro l hl
            rw [List.mem_append] at hl
            rcases hl with hl | hl
            · exact hsubs l hl
            · simp at hl
              subst hl
              rfl
      · exact ih _ _ _ _ _ _ hcg htot hings hsubs h

/-- Resolution preserves cache goodness and every successful result is a
good entry (for a store satisfying the schema constraints). -/
theorem calc_good : ∀ (s : Store), ValidStore s →
    ∀ (c : Cache) (rid depth : ℤ) res (c' : Cache),
    CacheGood c → calculate_recipe_cost s c rid depth = (res, c') →
    CacheGood c' ∧ ∀ v, res = .ok v → EntryGood v := by
  intro s hs
  suffices H : ∀ (n : ℕ) (depth : ℤ), (4 - depth).toNat ≤ n →
      ∀ (c : Cache) (rid : ℤ) res (c' : Cache),
      CacheGood c → calculate_recipe_cost s c rid depth = (res, c') →
      CacheGood c' ∧ ∀ v, res = .ok v → EntryGood v by
    intro c rid depth res c' hcg h
    exact H (4 - depth).toNat depth le_rfl c rid res c' hcg h
  intro n
  induction n using Nat.strong_induction_on with
  | _ n IHn =>
    intro depth hn c rid res c' hcg h
    unfold calculate_recipe_cost at h
    split at h
    · simp at h
      obtain ⟨h1, h2⟩ := h
      subst h2
      refine ⟨hcg, fun v hv => ?_⟩
      rw [← h1] at hv
      simp at hv
    · rename_i hd3
      split at h
      · rename_i entry hentry
        simp at h
        obtain ⟨h1, h2⟩ := h
        subst h2
        refine ⟨hcg, fun v hv => ?_⟩
        rw [← h1] at hv
        simp at hv
        subst hv
        exact hcg _ _ hentry
      · rename_i hmiss
        split at h
        · simp at h
          obtain ⟨h1, h2⟩ := h
          subst h2
          refine ⟨hcg, fun v hv => ?_⟩
          rw [← h1] at hv
          simp at hv
        · rename_i recipe hrec
          have IH : ∀ c₀ rid₀ res₀ c₀', CacheGood c₀ →
              calculate_recipe_cost s c₀ rid₀ (depth + 1) = (res₀, c₀') →
              CacheGood c₀' ∧ ∀ v, res₀ = .ok v → EntryGood v := by
            intro c₀ rid₀ res₀ c₀' hcg₀ h₀
            exact IHn (4 - (depth + 1)).toNat (by omega) (depth + 1) le_rfl c₀ rid₀ res₀ c₀'
              hcg₀ h₀
          split at h
          · rename_i e cache₁ hpi
            simp at h
            obtain ⟨h1, h2⟩ := h
            subst h2
            refine ⟨(processItems_good s depth (by omega) IH _ _ _ _ _ _ _ hcg (by simp)
              (by simp) (by simp) hpi).1, fun v hv => ?_⟩
            rw [← h1] at hv
            simp at hv
          · rename_i M ings subs cache₁ hpi
            obtain ⟨hcg₁, hok⟩ := processItems_good s depth (by omega) IH _ _ _ _ _ _ _ hcg
              (by simp) (by simp) (by simp) hpi
            obtain ⟨hM, hI, hS⟩ := hok M ings subs rfl
            simp only [Store.lookupRecipe] at hrec
            obtain ⟨hb, hy, -⟩ := hs.1 _ (lookup_mem hrec)
            have hnet : 0 < recipe.batch_size_l * (recipe.yield_pct / 100) := by positivity
            have hEG : EntryGood
                (calc_cost_per_liter M recipe.energy_cost_chf recipe.batch_size_l
                  recipe.yield_pct,
                 { name := recipe.name
                   batch_size := recipe.batch_size_l
                   yield_pct := recipe.yield_pct
                   level := recipe.level
                   ingredients := ings
                   sub_recipes := subs
                   energy_cost := recipe.energy_cost_chf
                   total_material_cost := M
                   total_cost := M + recipe.energy_cost_chf
                   net_output_l := recipe.batch_size_l * (recipe.yield_pct / 100)
                   cost_per_liter := calc_cost_per_liter M recipe.energy_cost_chf
                     recipe.batch_size_l recipe.yield_pct }) := by
              refine ⟨?_, hnet, rfl, hM, hI, hS⟩
              show calc_cost_per_liter M recipe.energy_cost_chf recipe.batch_size_l
                recipe.yield_pct = _
              unfold calc_cost_per_liter
              rw [if_neg]
              push_neg
              exact ⟨hb, hy⟩
            dsimp only at h
            simp at h
            obtain ⟨h1, h2⟩ := h
            constructor
            · intro k v hkv
              rw [← h2] at hkv
              rw [List.lookup] at hkv
              by_cases hkr : (k == rid) = true
              · simp only [hkr] at hkv
                simp at hkv
                rw [← hkv]
                exact hEG
              · simp only [Bool.not_eq_true] at hkr
                simp only [hkr] at hkv
                exact hcg₁ _ _ hkv
            · intro v hv
              rw [← h1] at hv
              simp at hv
              rw [← hv]
              exact hEG

/-- C1: whenever resolution succeeds (on a schema-valid store with a
well-formed cache, as a fresh resolver has), the returned cost per liter is
`(total_material_cost + energy_cost) / net_output` with
`net_output = batch_size_l × yield_pct/100 > 0`, where the material cost sums
`amount × price_per_unit` over ingredient lines and
`amount × sub_cost_per_liter` over sub-recipe lines; and whenever the net
output is ≤ 0, `calc_cost_per_liter` returns 0 rather than raising. -/
theorem C1_cost_per_liter_formula :
    (∀ (s : Store) (c : Cache) (rid depth : ℤ) (cpl : ℚ) (det : Details) (c' : Cache),
      ValidStore s → CacheGood c →
      calculate_recipe_cost s c rid depth = (.ok (cpl, det), c') →
      cpl = (det.total_material_cost + det.energy_cost) / det.net_output_l ∧
      0 < det.net_output_l ∧
      det.net_output_l = det.batch_size * (det.yield_pct / 100) ∧
      det.total_material_cost =
        (det.ingredients.map IngredientLine.cost).sum +
          (det.sub_recipes.map SubRecipeLine.cost).sum ∧
      (∀ l ∈ det.ingredients, l.cost = l.amount * l.price_per_unit) ∧
      (∀ l ∈ det.sub_recipes, l.cost = l.amount_l * l.cost_per_liter)) ∧
    (∀ ingredients_cost energy_cost batch_size_l yield_pct : ℚ,
      batch_size_l * (yield_pct / 100) ≤ 0 →
      calc_cost_per_liter ingredients_cost energy_cost batch_size_l yield_pct = 0) := by
  constructor
  · intro s c rid depth cpl det c' hs hcg h
    exact (calc_good s hs c rid depth _ c' hcg h).2 (cpl, det) rfl
  · intro ic ec b y hnet
    unfold calc_cost_per_liter
    rw [if_pos]
    by_contra hc
    push_neg at hc
    obtain ⟨hb, hy⟩ := hc
    nlinarith [mul_pos hb (show (0:ℚ) < y / 100 by linarith)]

theorem C1_cost_per_liter_formula_witness :
    ValidStore grundStore ∧ CacheGood ([] : Cache) ∧
    (3979/600 : ℚ) =
      (exGrundDetails.total_material_cost + exGrundDetails.energy_cost) /
        exGrundDetails.net_output_l ∧
    0 < exGrundDetails.net_output_l ∧
    ((-1 : ℚ) * (50 / 100) ≤ 0 ∧ calc_cost_per_liter 7 3 (-1) 50 = 0) := by
  have hval : ValidStore grundStore := by
    simp [ValidStore, grundStore]
    norm_num
  have hcg : CacheGood ([] : Cache) := by
    intro rid v hv
    simp [List.lookup] at hv
  have happ := C1_cost_per_liter_formula.1 grundStore [] 1 0 (3979/600) exGrundDetails
    grundCache hval hcg grund_eval
  have hzero := C1_cost_per_liter_formula.2 7 3 (-1) 50 (by norm_num)
  exact ⟨hval, hcg, happ.1, happ.2.1, by norm_num, hzero⟩

/-- While recipe `P` is unclosed (not yet cached), the item loop never adds a
cache entry for `P`; moreover if the item list contains a sub-recipe
reference back to `P`, the loop necessarily fails (the nested call cannot
both succeed and leave `P` uncached). -/
theorem processItems_protect (s : Store) (P : ℤ) (depth : ℤ) (hd : depth ≤ 3)
    (IH : ∀ c rid res c', c.lookup P = none →
      calculate_recipe_cost s c rid (depth + 1) = (res, c') → c'.lookup P = none) :
    ∀ (items : List RecipeItem) (c : Cache) (total : ℚ) (ings : List IngredientLine)
      (subs : List SubRecipeLine) res (c' : Cache), c.lookup P = none →
      processItems s c items depth hd total ings subs = (res, c') →
      c'.lookup P = none ∧
      ((∃ item ∈ items, truthy item.ingredient_id = false ∧
        truthy item.sub_recipe_id = true ∧ item.sub_recipe_id.getD 0 = P) →
        ∃ e, res = .error e) := by
  intro items
  induction items with
  | nil =>
    intro c total ings subs res c' hP h
    unfold processItems at h
    simp at h
    obtain ⟨-, h2⟩ := h
    subst h2
    exact ⟨hP, fun hex => by simp at hex⟩
  | cons item rest ih =>
    intro c total ings subs res c' hP h
    unfold processItems at h
    split at h
    · rename_i htri
      split at h
      · simp at h
        obtain ⟨h1, h2⟩ := h
        subst h2
        exact ⟨hP, fun _ => ⟨.noneSubscript, h1.symm⟩⟩
      · obtain ⟨hq, hcond⟩ := ih _ _ _ _ _ _ hP h
        refine ⟨hq, fun hex => ?_⟩
        obtain ⟨it, hit, hfalse, htr, hgd⟩ := hex
        rcases List.mem_cons.mp hit with hhd | htl
        · subst hhd
          rw [htri] at hfalse
          exact Bool.noConfusion hfalse
        · exact hcond ⟨it, htl, hfalse, htr, hgd⟩
    · rename_i htri
      split at h
      · rename_i htrs
        split at h
        · rename_i e cache₁ hcalc
          simp at h
          obtain ⟨h1, h2⟩ := h
          subst h2
          exact ⟨IH _ _ _ _ hP hcalc, fun _ => ⟨e, h1.symm⟩⟩
        · rename_i scl sdet cache₁ hcalc
          have hP₁ : cache₁.lookup P = none := IH _ _ _ _ hP hcalc
          by_cases hk : item.sub_recipe_id.getD 0 = P
          · rw [hk] at hcalc
            have := result_cached hcalc
            rw [hP₁] at this
            exact Option.noConfusion this
          · obtain ⟨hq, hcond⟩ := ih _ _ _ _ _ _ hP₁ h
            refine ⟨hq, fun hex => ?_⟩
            obtain ⟨it, hit, hfalse, htr, hgd⟩ := hex
            rcases List.mem_cons.mp hit with hhd | htl
            · subst hhd
              exact absurd hgd hk
            · exact hcond ⟨it, htl, hfalse, htr, hgd⟩
      · rename_i htrs
        obtain ⟨hq, hcond⟩ := ih _ _ _ _ _ _ hP h
        refine ⟨hq, fun hex => ?_⟩
        obtain ⟨it, hit, hfalse, htr, hgd⟩ := hex
        rcases List.mem_cons.mp hit with hhd | htl
        · subst hhd
          exact absurd htr htrs
        · exact hcond ⟨it, htl, hfalse, htr, hgd⟩

/-- If recipe `P` consumes itself (directly, through a truthy sub-recipe item
of its own item list), then no resolution whatsoever can create a cache entry
for `P`: the cyclic chain always runs into the depth guard first. -/
theorem calc_protect (s : Store) (P : ℤ) (hself : SelfConsuming s P) :
    ∀ (n : ℕ) (depth : ℤ), (4 - depth).toNat ≤ n →
    ∀ (c : Cache) (rid : ℤ) res (c' : Cache),
    c.lookup P = none → calculate_recipe_cost s c rid depth = (res, c') →
    c'.lookup P = none := by
  intro n
  induction n using Nat.strong_induction_on with
  | _ n IHn =>
    intro depth hn c rid res c' hP h
    unfold calculate_recipe_cost at h
    split at h
    · simp at h
      obtain ⟨-, h2⟩ := h
      subst h2
      exact hP
    · rename_i hd3
      split at h
      · simp at h
        obtain ⟨-, h2⟩ := h
        subst h2
        exact hP
      · rename_i hmiss
        split at h
        · simp at h
          obtain ⟨-, h2⟩ := h
          subst h2
          exact hP
        · rename_i recipe hrec
          have IH : ∀ c₀ rid₀ res₀ c₀', c₀.lookup P = none →
              calculate_recipe_cost s c₀ rid₀ (depth + 1) = (res₀, c₀') →
              c₀'.lookup P = none := by
            intro c₀ rid₀ res₀ c₀' hP₀ h₀
            exact IHn (4 - (depth + 1)).toNat (by omega) (depth + 1) le_rfl c₀ rid₀ res₀ c₀'
              hP₀ h₀
          split at h
          · rename_i e cache₁ hpi
            simp at h
            obtain ⟨-, h2⟩ := h
            subst h2
            exact (processItems_protect s P depth (by omega) IH _ _ _ _ _ _ _ hP hpi).1
          · rename_i M ings subs cache₁ hpi
            obtain ⟨hq, hcond⟩ := processItems_protect s P depth (by omega) IH _ _ _ _ _ _ _
              hP hpi
            dsimp only at h
            simp at h
            obtain ⟨-, h2⟩ := h
            by_cases hrP : rid = P
            · subst hrP
              obtain ⟨e, he⟩ := hcond hself
              exact absurd he (by simp)
            · rw [← h2]
              rw [List.lookup]
              have hne : (P == rid) = false := by
                simp
                exact fun hc => hrP hc.symm
              simp only [hne]
              simpa using hq

/-- Every sub-recipe line a successful item loop returns either was already
in the accumulator or stems from an item whose sub-recipe reference is the
line's recipe identifier (with the ingredient reference falsy). -/
theorem processItems_subline_source (s : Store) (depth : ℤ) (hd : depth ≤ 3) :
    ∀ (items : List RecipeItem) (c : Cache) (total : ℚ) (ings : List IngredientLine)
      (subs : List SubRecipeLine) (M : ℚ) (I : List IngredientLine)
      (S : List SubRecipeLine) (c' : Cache),
      processItems s c items depth hd total ings subs = (.ok (M, I, S), c') →
      ∀ l ∈ S, l ∈ subs ∨ ∃ item ∈ items, truthy item.ingredient_id = false ∧
        truthy item.sub_recipe_id = true ∧ item.sub_recipe_id.getD 0 = l.recipe_id := by
  intro items
  induction items with
  | nil =>
    intro c total ings subs M I S c' h l hl
    unfold processItems at h
    simp at h
    obtain ⟨⟨-, -, hS⟩, -⟩ := h
    subst hS
    exact Or.inl hl
  | cons item rest ih =>
    intro c total ings subs M I S c' h l hl
    unfold processItems at h
    split at h
    · rename_i htri
      split at h
      · simp at h
      · rcases ih _ _ _ _ _ _ _ _ h l hl with hin | ⟨it, htl, hprops⟩
        · exact Or.inl hin
        · exact Or.inr ⟨it, List.mem_cons_of_mem _ htl, hprops⟩
    · rename_i htri
      split at h
      · rename_i htrs
        split at h
        · simp at h
        · rename_i scl sdet cache₁ hcalc
          rcases ih _ _ _ _ _ _ _ _ h l hl with hin | ⟨it, htl, hprops⟩
          · rcases List.mem_append.mp hin with hin' | hin'
            · exact Or.inl hin'
            · simp at hin'
              subst hin'
              refine Or.inr ⟨item, List.mem_cons_self _ _, ?_, ?_, rfl⟩
              · simp at htri
                exact htri
              · exact htrs
          · exact Or.inr ⟨it, List.mem_cons_of_mem _ htl, hprops⟩
      · rcases ih _ _ _ _ _ _ _ _ h l hl with hin | ⟨it, htl, hprops⟩
        · exact Or.inl hin
        · exact Or.inr ⟨it, List.mem_cons_of_mem _ htl, hprops⟩

/-- On success, every sub-recipe line of the result is memoized: the final
cache maps the line's recipe identifier to its cost per liter (provided the
accumulated lines already were). -/
theorem processItems_sublines_cached (s : Store) (depth : ℤ) (hd : depth ≤ 3) :
    ∀ (items : List RecipeItem) (c : Cache) (total : ℚ) (ings : List IngredientLine)
      (subs : List SubRecipeLine) (M : ℚ) (I : List IngredientLine)
      (S : List SubRecipeLine) (c' : Cache),
      (∀ l ∈ subs, ∃ dd, c.lookup l.recipe_id = some (l.cost_per_liter, dd)) →
      processItems s c items depth hd total ings subs = (.ok (M, I, S), c') →
      ∀ l ∈ S, ∃ dd, c'.lookup l.recipe_id = some (l.cost_per_liter, dd) := by
  intro items
  induction items with
  | nil =>
    intro c total ings subs M I S c' hacc h l hl
    unfold processItems at h
    simp at h
    obtain ⟨⟨-, -, hS⟩, h2⟩ := h
    subst hS
    subst h2
    exact hacc l hl
  | cons item rest ih =>
    intro c total ings subs M I S c' hacc h l hl
    unfold processItems at h
    split at h
    · split at h
      · simp at h
      · exact ih _ _ _ _ _ _ _ _ hacc h l hl
    · split at h
      · split at h
        · simp at h
        · rename_i scl sdet cache₁ hcalc
          have hpres : CachePreserved c cache₁ := calc_preserved _ _ _ _ _ _ hcalc
          have hnew := result_cached hcalc
          refine ih _ _ _ _ _ _ _ _ ?_ h l hl
          intro l' hl'
          rcases List.mem_append.mp hl' with hin | hin
          · obtain ⟨dd, hdd⟩ := hacc l' hin
            exact ⟨dd, hpres _ _ hdd⟩
          · simp at hin
            subst hin
            exact ⟨sdet, hnew⟩
      · exact ih _ _ _ _ _ _ _ _ hacc h l hl

/-- C4: resolving a parent on a fresh instance equals the parent's own
ingredient and energy costs plus, per sub-recipe line, the amount consumed
times the sub-recipe's cost per liter — and that cost per liter is exactly
what resolving the sub-recipe standalone (a top-level, depth-0 call on the
instance) returns. -/
theorem C4_subrecipe_compositionality :
    ∀ (s : Store) (P : ℤ) (cpl : ℚ) (det : Details) (c' : Cache),
    ValidStore s → calculate_recipe_cost s [] P 0 = (.ok (cpl, det), c') →
    cpl = ((det.ingredients.map IngredientLine.cost).sum +
      (det.sub_recipes.map (fun l => l.amount_l * l.cost_per_liter)).sum +
      det.energy_cost) / det.net_output_l ∧
    (∀ l ∈ det.sub_recipes, ∃ dd,
      calculate_recipe_cost s c' l.recipe_id 0 = (.ok (l.cost_per_liter, dd), c')) := by
  intro s P cpl det c' hs h
  have hcg : CacheGood ([] : Cache) := by
    intro rid v hv
    simp [List.lookup] at hv
  obtain ⟨hcpl, hnet, hnetdef, hM, hIl, hSl⟩ :=
    (calc_good s hs [] P 0 _ c' hcg h).2 (cpl, det) rfl
  dsimp only at hcpl hnet hnetdef hM hIl hSl
  constructor
  · rw [hcpl, hM]
    have hmap : det.sub_recipes.map SubRecipeLine.cost =
        det.sub_recipes.map (fun l => l.amount_l * l.cost_per_liter) :=
      List.map_congr_left hSl
    rw [hmap]
  · have h0 := h
    unfold calculate_recipe_cost at h0
    rw [dif_neg (show ¬(0:ℤ) > 3 by norm_num)] at h0
    simp only [List.lookup] at h0
    split at h0
    · simp at h0
    · rename_i recipe hrec
      split at h0
      · simp at h0
      · rename_i M ings subs cache₁ hpi
        simp at h0
        obtain ⟨⟨hcplX, hdet⟩, hc'⟩ := h0
        intro l hl
        have hlS : l ∈ subs := by
          rw [← hdet] at hl
          simpa using hl
        rcases processItems_subline_source s 0 (by norm_num) _ _ _ _ _ _ _ _ _ hpi l hlS with
          hin | ⟨item, hitem, hif, hit, hgd⟩
        · simp at hin
        · have hlP : l.recipe_id ≠ P := by
            intro hEq
            have hgdP : item.sub_recipe_id.getD 0 = P := hgd.trans hEq
            have hself : SelfConsuming s P := ⟨item, hitem, hif, hit, hgdP⟩
            have IHp : ∀ (c₀ : Cache) (rid₀ : ℤ) res₀ (c₀' : Cache),
                c₀.lookup P = none →
                calculate_recipe_cost s c₀ rid₀ (0 + 1) = (res₀, c₀') →
                c₀'.lookup P = none := by
              intro c₀ rid₀ res₀ c₀' hp0 hh
              exact calc_protect s P hself ((4 : ℤ) - (0 + 1)).toNat (0 + 1) le_rfl c₀ rid₀
                res₀ c₀' hp0 hh
            obtain ⟨e, he⟩ := (processItems_protect s P 0 (by norm_num) IHp _ _ _ _ _ _ _
              (by simp [List.lookup]) hpi).2 ⟨item, hitem, hif, hit, hgdP⟩
            simp at he
          obtain ⟨dd, hdd⟩ := processItems_sublines_cached s 0 (by norm_num) _ _ _ _ _ _ _ _ _
            (by intro l' hl'; simp at hl') hpi l hlS
          refine ⟨dd, ?_⟩
          have hc'' : c'.lookup l.recipe_id = some (l.cost_per_liter, dd) := by
            rw [← hc']
            rw [List.lookup]
            have hne : (l.recipe_id == P) = false := by
              simp
              exact hlP
            simp only [hne]
            simpa using hdd
          exact calc_cache_hit s c' l.recipe_id 0 _ hc'' (by norm_num)

/-- Evaluation: resolving the Demi-Glace (recipe 2 of `demiStore`) on a fresh
instance memoizes the Grundfond first and yields 22883/1350 per liter. -/
theorem demi_eval :
    calculate_recipe_cost demiStore [] 2 0 = (.ok (22883/1350, exDemiDetails), exDemiCache) := by
  simp [calculate_recipe_cost, processItems, demiStore, Store.lookupRecipe, Store.itemsOf,
    Store.lookupIngredient, truthy, List.lookup, calc_cost_per_liter, exDemiDetails,
    exGrundDetails, exDemiCache]
  norm_num

theorem C4_subrecipe_compositionality_witness :
    ValidStore demiStore ∧
    calculate_recipe_cost demiStore [] 2 0 =
      (.ok (22883/1350, exDemiDetails), exDemiCache) ∧
    (22883/1350 : ℚ) = ((45/2 + 45/2) + 50 * (3979/600) + 24/5) / (45/2) ∧
    calculate_recipe_cost demiStore exDemiCache 1 0 =
      (.ok (3979/600, exGrundDetails), exDemiCache) := by
  have hval : ValidStore demiStore := by
    simp [ValidStore, demiStore]
    norm_num
  obtain ⟨heq, hsub⟩ := C4_subrecipe_compositionality demiStore 2 (22883/1350) exDemiDetails
    exDemiCache hval demi_eval
  refine ⟨hval, demi_eval, ?_, ?_⟩
  · rw [heq]
    norm_num [exDemiDetails]
  · obtain ⟨dd, hdd⟩ := hsub ⟨1, "Grundfond Kalb", 50, 3979/600, 3979/12⟩
      (by simp [exDemiDetails])
    have hdd' : exDemiCache.lookup (1 : ℤ) = some (3979/600, exGrundDetails) := by
      simp [exDemiCache, List.lookup]
    exact calc_cache_hit demiStore exDemiCache 1 0 _ hdd' (by norm_num)
